import Mathlib

/-!
# Verification of the color-assignment engine (`colors.js`)

Shallow embedding of the color-assignment subsystem of the
scatter-chart viewer.  The JavaScript module keeps two pieces of
module-level mutable state, `colorCache` (a plain object literal
mapping series names to color strings) and `availableColors`
(initialised to a copy of the fixed 10-color palette).  We model the
object's own entries as an association list whose keys stay pairwise
distinct (inserting an existing key overwrites in place, a new key is
appended), and the pair of mutable variables as an explicit
`ColorState` record threaded through every operation.

JavaScript semantics is modelled exactly where the code relies on it:

* Truthiness (`if (colorCache[name])`, `if (!chosenColor)`): the only
  falsy string is the empty string; `undefined` is falsy; inherited
  functions and objects are truthy.
* The prototype chain of a plain object literal: the property read
  `colorCache[name]` falls back to the members of `Object.prototype`
  when there is no own entry, so names such as `"toString"`,
  `"constructor"` or `"__proto__"` yield truthy non-string values even
  on an empty cache (`jsGet`); the property write `colorCache[name] =
  color` creates or overwrites an own entry for every name except
  `"__proto__"`, whose inherited accessor setter silently ignores
  string values and creates no entry (`jsSet`).  `Object.keys` and
  `Object.values` enumerate own entries only.
-/

namespace Colors

/-- The fixed ten-color palette `distinctPalette` from `colors.js`. -/
def distinctPalette : List String :=
  ["#E6194B", "#3CB44B", "#FFE119", "#4363D8", "#F58231",
   "#911EB4", "#46F0F0", "#F032E6", "#BCF60C", "#FABEBE"]

/-- The category-preference table `categoryBaseColor`, in the object's
key declaration order (all keys are non-integer strings, so JavaScript
enumerates them in insertion order). -/
def categoryBaseColor : List (String × String) :=
  [("ecodesign", distinctPalette.getD 4 ""),
   ("fireplace", distinctPalette.getD 0 ""),
   ("gas",       distinctPalette.getD 3 ""),
   ("power",     distinctPalette.getD 1 ""),
   ("road",      distinctPalette.getD 6 "")]

/-- The module-level mutable state: `colorCache` and `availableColors`. -/
structure ColorState where
  colorCache : List (String × String)
  availableColors : List String
  deriving Repr, DecidableEq

/-- The state at module load: `colorCache = {}`,
`availableColors = [...distinctPalette]`. -/
def initState : ColorState :=
  { colorCache := [], availableColors := distinctPalette }

/-- `resetColorSystem()`: sets `colorCache = {}` and
`availableColors = [...distinctPalette]`. -/
def resetColorSystem (_s : ColorState) : ColorState :=
  { colorCache := [], availableColors := distinctPalette }

/-- Property read `colorCache[name]`: `some` of the stored value when
the key is present, `none` (JavaScript `undefined`) otherwise. -/
def cacheLookup (cache : List (String × String)) (name : String) : Option String :=
  (cache.find? (fun p => p.1 = name)).map (fun p => p.2)

/-- `Object.values(colorCache)`. -/
def cacheValues (cache : List (String × String)) : List String :=
  cache.map (fun p => p.2)

/-- Own-entry write: overwrites the entry in place when the key exists
(JavaScript objects keep the key's original enumeration position),
otherwise appends a fresh entry at the end. -/
def cacheSet : List (String × String) → String → String → List (String × String)
  | [], name, color => [(name, color)]
  | p :: rest, name, color =>
    if p.1 = name then (name, color) :: rest
    else p :: cacheSet rest name color

/-- A JavaScript value as it can flow out of the property read
`colorCache[name]` on the plain object `colorCache`: an own string
entry, an inherited member of `Object.prototype` (a function, or
`Object.prototype` itself for the `__proto__` getter — identified by
the key it was read through, since distinct keys name distinct
objects), or `undefined`. -/
inductive JsValue where
  | str : String → JsValue
  | protoVal : String → JsValue
  | undef : JsValue
  deriving Repr, DecidableEq

/-- The property keys of `Object.prototype` that a plain object literal
inherits: reading any of them on `colorCache` with no own entry yields
a truthy non-string value. -/
def objectProtoKeys : List String :=
  ["constructor", "hasOwnProperty", "isPrototypeOf", "propertyIsEnumerable",
   "toLocaleString", "toString", "valueOf",
   "__defineGetter__", "__defineSetter__", "__lookupGetter__", "__lookupSetter__",
   "__proto__"]

/-- JavaScript truthiness of a value read from the cache: the empty
string and `undefined` are falsy; every inherited prototype member
(functions, `Object.prototype`) is truthy. -/
def jsTruthy : JsValue → Bool
  | JsValue.str c => c ≠ ""
  | JsValue.protoVal _ => true
  | JsValue.undef => false

/-- Property read `colorCache[name]` with the prototype chain: an own
entry if present, else the inherited `Object.prototype` member for its
keys, else `undefined`. -/
def jsGet (cache : List (String × String)) (name : String) : JsValue :=
  match cacheLookup cache name with
  | some v => JsValue.str v
  | none =>
    if name ∈ objectProtoKeys then JsValue.protoVal name else JsValue.undef

/-- Property write `colorCache[name] = color`: an existing own entry is
overwritten in place; otherwise the assignment walks the prototype
chain, where `"__proto__"` hits the inherited accessor whose setter
ignores string values (no entry is created), and every other name
(including ones shadowing writable inherited data properties such as
`"toString"`) creates an own entry. -/
def jsSet (cache : List (String × String)) (name color : String) :
    List (String × String) :=
  if name = "__proto__" ∧ cacheLookup cache name = none then cache
  else cacheSet cache name color

/-- JavaScript `str.includes(pat)`: `pat` occurs as a contiguous
substring of `str` (on the character lists). -/
def charsContain (str pat : List Char) : Bool :=
  str.tails.any (fun t => pat.isPrefixOf t)

/-- `name.toLowerCase()` as a character list (`Char.toLower` applied
pointwise, matching the ASCII case folding the category keys rely on). -/
def lowerChars (name : String) : List Char :=
  name.toList.map Char.toLower

/-- `Object.keys(categoryBaseColor).find(c => lower.includes(c))` where
`lower = name.toLowerCase()`: the first category rule whose key is a
substring of the lowercased name. -/
def categoryFind (name : String) : Option (String × String) :=
  categoryBaseColor.find? (fun p => charsContain (lowerChars name) p.1.toList)

/-- `availableColors.find(c => !Object.values(colorCache).includes(c))`. -/
def pickFresh (avail used : List String) : Option String :=
  avail.find? (fun c => !used.contains c)

/-- The exhaustion fallback
`distinctPalette[Object.keys(colorCache).length % distinctPalette.length]`. -/
def exhaustColor (s : ColorState) : String :=
  distinctPalette.getD (s.colorCache.length % distinctPalette.length) ""

/-- The final `if (!chosenColor) chosenColor = distinctPalette[...]`
step: a falsy candidate (`undefined` from a failed `find`, or the empty
string) is replaced by the exhaustion wraparound color. -/
def finishChoice (s : ColorState) (o : Option String) : String :=
  match o with
  | some c => if c = "" then exhaustColor s else c
  | none => exhaustColor s

/-- The color chosen on the assignment path of `getColorForGroup`
(cache miss, non-empty name): category preference, then first available
color not already used, then exhaustion wraparound.  The JavaScript
falsiness checks `!chosenColor` are rendered exactly: `none` and the
empty string are falsy. -/
def assignColor (s : ColorState) (name : String) : String :=
  let used := cacheValues s.colorCache
  finishChoice s
    (match categoryFind name with
     | some p =>
         if p.2 ≠ "" ∧ ¬ used.contains p.2 then some p.2
         else pickFresh s.availableColors used
     | none => pickFresh s.availableColors used)

/-- Falsy property read: compute the color, store
`colorCache[name] = chosenColor` (a property write), return it. -/
def assignAndStore (s : ColorState) (name : String) : JsValue × ColorState :=
  let c := assignColor s name
  (JsValue.str c, { s with colorCache := jsSet s.colorCache name c })

/-- `getColorForGroup(name)` as a state transformer returning the
JavaScript value and the updated state.  `if (!name) return '#888888'`
is the empty-name sentinel; `if (colorCache[name]) return
colorCache[name]` is a truthy check on the property read, so a truthy
inherited prototype member is returned as-is, while `undefined` and a
cached empty string fall through to (re)assignment. -/
def getColorForGroup (s : ColorState) (name : String) : JsValue × ColorState :=
  if name = "" then (JsValue.str "#888888", s)
  else
    let v := jsGet s.colorCache name
    if jsTruthy v then (v, s) else assignAndStore s name

/-- `getColorCache()`: a snapshot of the current own assignments (pure
model, so the copy is the value itself; `{ ...colorCache }` copies own
enumerable entries only). -/
def getColorCache (s : ColorState) : List (String × String) :=
  s.colorCache

/-- `setColorForGroup(name, color)`: the property write
`colorCache[name] = color`. -/
def setColorForGroup (s : ColorState) (name color : String) : ColorState :=
  { s with colorCache := jsSet s.colorCache name color }

/-- Feed a list of names through `getColorForGroup` in order, collecting
the returned values. -/
def runNames (s : ColorState) : List String → List JsValue × ColorState
  | [] => ([], s)
  | n :: rest =>
    let r := getColorForGroup s n
    let rs := runNames r.2 rest
    (r.1 :: rs.1, rs.2)

/-- The public operations of the engine, for reachability statements. -/
inductive JsOp where
  | reset : JsOp
  | getColor : String → JsOp
  | setColor : String → String → JsOp
  | getCache : JsOp
  deriving Repr, DecidableEq

/-- The state effect of one public operation. -/
def applyOp (s : ColorState) : JsOp → ColorState
  | JsOp.reset => resetColorSystem s
  | JsOp.getColor n => (getColorForGroup s n).2
  | JsOp.setColor n c => setColorForGroup s n c
  | JsOp.getCache => s

/-- The state after a sequence of public operations. -/
def applyOps (s : ColorState) (ops : List JsOp) : ColorState :=
  ops.foldl applyOp s

/-- The assignment-path choice recomputed from the cache alone, scanning
the constant `distinctPalette` where the code scans `availableColors`.
Used to state that the fallback scan is equivalent to scanning the fixed
palette directly whenever `availableColors` holds its initial value. -/
def assignColorFromCache (cache : List (String × String)) (name : String) : String :=
  let used := cacheValues cache
  finishChoice { colorCache := cache, availableColors := distinctPalette }
    (match categoryFind name with
     | some p =>
         if p.2 ≠ "" ∧ ¬ used.contains p.2 then some p.2
         else pickFresh distinctPalette used
     | none => pickFresh distinctPalette used)

/-! ### Basic facts about the palette and the category table -/

lemma distinctPalette_nodup : distinctPalette.Nodup := by decide

lemma distinctPalette_length_pos : 0 < distinctPalette.length := by decide

lemma distinctPalette_ne_empty : ∀ c ∈ distinctPalette, c ≠ "" := by decide

lemma categoryBaseColor_spec : ∀ p ∈ categoryBaseColor, p.2 ∈ distinctPalette ∧ p.2 ≠ "" := by
  decide

lemma categoryFind_spec {name : String} {p : String × String}
    (h : categoryFind name = some p) : p.2 ∈ distinctPalette ∧ p.2 ≠ "" :=
  categoryBaseColor_spec p (List.mem_of_find?_eq_some h)

/-- No `Object.prototype` key contains a category substring, so a name
with a category match is never a prototype key. -/
lemma categoryFind_of_protoKey : ∀ k ∈ objectProtoKeys, categoryFind k = none := by
  decide

lemma not_protoKey_of_categoryFind {name : String} {p : String × String}
    (h : categoryFind name = some p) : name ∉ objectProtoKeys := by
  intro hmem
  rw [categoryFind_of_protoKey name hmem] at h
  exact Option.noConfusion h

/-! ### Cache lemmas -/

lemma cacheLookup_eq_none_iff {cache : List (String × String)} {name : String} :
    cacheLookup cache name = none ↔ ∀ p ∈ cache, p.1 ≠ name := by
  simp [cacheLookup, List.find?_eq_none]

lemma cacheLookup_cacheSet_self (cache : List (String × String)) (name color : String) :
    cacheLookup (cacheSet cache name color) name = some color := by
  induction cache with
  | nil => simp [cacheSet, cacheLookup]
  | cons p rest ih =>
    by_cases h : p.1 = name
    · simp [cacheSet, h, cacheLookup]
    · simpa [cacheSet, h, cacheLookup, List.find?_cons, h] using ih

lemma cacheSet_of_lookup_none {cache : List (String × String)} {name : String}
    (h : cacheLookup cache name = none) (color : String) :
    cacheSet cache name color = cache ++ [(name, color)] := by
  induction cache with
  | nil => simp [cacheSet]
  | cons p rest ih =>
    rw [cacheLookup_eq_none_iff] at h ih
    have hp : p.1 ≠ name := h p (by simp)
    simp only [cacheSet, if_neg hp, List.cons_append, List.cons.injEq, true_and]
    exact ih fun q hq => h q (by simp [hq])

lemma cacheValues_append (c1 c2 : List (String × String)) :
    cacheValues (c1 ++ c2) = cacheValues c1 ++ cacheValues c2 := by
  simp [cacheValues]

lemma cacheValues_length (cache : List (String × String)) :
    (cacheValues cache).length = cache.length := by
  simp [cacheValues]

/-! ### Property reads and writes through the prototype chain -/

lemma proto_mem_objectProtoKeys : "__proto__" ∈ objectProtoKeys := by decide

lemma jsGet_eq_str {cache : List (String × String)} {name c : String}
    (h : jsGet cache name = JsValue.str c) : cacheLookup cache name = some c := by
  unfold jsGet at h
  cases hl : cacheLookup cache name with
  | some v =>
    rw [hl] at h
    simp only [JsValue.str.injEq] at h
    rw [h]
  | none =>
    rw [hl] at h
    by_cases hp : name ∈ objectProtoKeys <;> simp [hp] at h

lemma jsGet_eq_undef {cache : List (String × String)} {name : String}
    (h : jsGet cache name = JsValue.undef) :
    cacheLookup cache name = none ∧ name ∉ objectProtoKeys := by
  unfold jsGet at h
  cases hl : cacheLookup cache name with
  | some v => rw [hl] at h; simp at h
  | none =>
    rw [hl] at h
    by_cases hp : name ∈ objectProtoKeys
    · simp [hp] at h
    · exact ⟨rfl, hp⟩

lemma jsGet_of_lookup_some {cache : List (String × String)} {name v : String}
    (h : cacheLookup cache name = some v) : jsGet cache name = JsValue.str v := by
  simp [jsGet, h]

lemma jsGet_miss_proto {cache : List (String × String)} {name : String}
    (h1 : cacheLookup cache name = none) (h2 : name ∈ objectProtoKeys) :
    jsGet cache name = JsValue.protoVal name := by
  simp [jsGet, h1, h2]

lemma jsGet_miss_plain {cache : List (String × String)} {name : String}
    (h1 : cacheLookup cache name = none) (h2 : name ∉ objectProtoKeys) :
    jsGet cache name = JsValue.undef := by
  simp [jsGet, h1, h2]

lemma jsSet_of_ne_proto {name : String} (h : name ≠ "__proto__")
    (cache : List (String × String)) (color : String) :
    jsSet cache name color = cacheSet cache name color := by
  simp [jsSet, h]

lemma jsSet_of_lookup_some {cache : List (String × String)} {name v : String}
    (h : cacheLookup cache name = some v) (color : String) :
    jsSet cache name color = cacheSet cache name color := by
  simp [jsSet, h]

/-! ### `pickFresh` and `exhaustColor` -/

lemma pickFresh_some {avail used : List String} {c : String}
    (h : pickFresh avail used = some c) : c ∈ avail ∧ c ∉ used := by
  refine ⟨List.mem_of_find?_eq_some h, ?_⟩
  have h1 := List.find?_some h
  simpa using h1

lemma pickFresh_eq_none_iff {avail used : List String} :
    pickFresh avail used = none ↔ ∀ c ∈ avail, c ∈ used := by
  simp [pickFresh, List.find?_eq_none, List.contains, List.elem_iff]

lemma exists_fresh {used : List String} (h : used.length < distinctPalette.length) :
    ∃ c ∈ distinctPalette, c ∉ used := by
  by_contra hc
  push_neg at hc
  have hsub : distinctPalette.toFinset ⊆ used.toFinset := by
    intro x hx
    rw [List.mem_toFinset] at hx ⊢
    exact hc x hx
  have h1 : distinctPalette.toFinset.card ≤ used.toFinset.card := Finset.card_le_card hsub
  have h2 : used.toFinset.card ≤ used.length := List.toFinset_card_le used
  have h3 : distinctPalette.toFinset.card = distinctPalette.length :=
    List.toFinset_card_of_nodup distinctPalette_nodup
  omega

lemma pickFresh_palette_some {used : List String} (h : used.length < distinctPalette.length) :
    ∃ c, pickFresh distinctPalette used = some c := by
  obtain ⟨c, hc1, hc2⟩ := exists_fresh h
  have hs : (pickFresh distinctPalette used).isSome := by
    rw [pickFresh, List.find?_isSome]
    refine ⟨c, hc1, ?_⟩
    simp only [Bool.not_eq_true']
    rw [← Bool.not_eq_true]
    intro hcon
    exact hc2 (by rwa [List.contains, List.elem_iff] at hcon)
  exact Option.isSome_iff_exists.mp hs

lemma exhaustColor_mem (s : ColorState) : exhaustColor s ∈ distinctPalette := by
  unfold exhaustColor
  have h : s.colorCache.length % distinctPalette.length < distinctPalette.length :=
    Nat.mod_lt _ distinctPalette_length_pos
  rw [List.getD_eq_getElem?_getD, List.getElem?_eq_getElem h, Option.getD_some]
  exact List.getElem_mem h

lemma exhaustColor_ne_empty (s : ColorState) : exhaustColor s ≠ "" :=
  distinctPalette_ne_empty _ (exhaustColor_mem s)

/-! ### The assignment path -/

lemma finishChoice_ne_empty (s : ColorState) (o : Option String) : finishChoice s o ≠ "" := by
  cases o with
  | none => exact exhaustColor_ne_empty s
  | some c =>
    by_cases hc : c = "" <;> simp [finishChoice, hc, exhaustColor_ne_empty s]

lemma finishChoice_some (s : ColorState) {c : String} (hc : c ≠ "") :
    finishChoice s (some c) = c := by
  simp [finishChoice, hc]

lemma finishChoice_none (s : ColorState) : finishChoice s none = exhaustColor s := rfl

lemma finishChoice_congr {s s' : ColorState} (h : s.colorCache = s'.colorCache)
    (o : Option String) : finishChoice s o = finishChoice s' o := by
  have he : exhaustColor s = exhaustColor s' := by rw [exhaustColor, exhaustColor, h]
  cases o with
  | none => exact he
  | some c => simp [finishChoice, he]

lemma assignColor_ne_empty (s : ColorState) (name : String) : assignColor s name ≠ "" := by
  unfold assignColor
  exact finishChoice_ne_empty s _

lemma assignColor_fresh_spec (s : ColorState) (name : String)
    (havail : s.availableColors = distinctPalette)
    (hlen : s.colorCache.length < distinctPalette.length) :
    assignColor s name ∈ distinctPalette ∧
      assignColor s name ∉ cacheValues s.colorCache := by
  obtain ⟨c₀, hc₀⟩ : ∃ c, pickFresh s.availableColors (cacheValues s.colorCache) = some c := by
    rw [havail]
    exact pickFresh_palette_some (by rwa [cacheValues_length])
  obtain ⟨hc₀mem, hc₀used⟩ := pickFresh_some (havail ▸ hc₀)
  have hc₀ne : c₀ ≠ "" := distinctPalette_ne_empty _ hc₀mem
  unfold assignColor
  cases hcf : categoryFind name with
  | none =>
    dsimp only
    rw [hc₀, finishChoice_some s hc₀ne]
    exact ⟨hc₀mem, hc₀used⟩
  | some p =>
    dsimp only
    by_cases hpe : p.2 = ""
    · rw [if_neg (by simp [hpe]), hc₀, finishChoice_some s hc₀ne]
      exact ⟨hc₀mem, hc₀used⟩
    · by_cases hpu : p.2 ∈ cacheValues s.colorCache
      · rw [if_neg (by simp [hpu]), hc₀, finishChoice_some s hc₀ne]
        exact ⟨hc₀mem, hc₀used⟩
      · rw [if_pos (by simp [hpe, hpu]), finishChoice_some s hpe]
        exact ⟨(categoryFind_spec hcf).1, hpu⟩

lemma assignColor_category (s : ColorState) (name : String) {p : String × String}
    (hcf : categoryFind name = some p)
    (hpu : p.2 ∉ cacheValues s.colorCache) :
    assignColor s name = p.2 := by
  have hpe : p.2 ≠ "" := (categoryFind_spec hcf).2
  unfold assignColor
  rw [hcf]
  dsimp only
  rw [if_pos (by simp [hpe, hpu]), finishChoice_some s hpe]

lemma assignColor_fallback (s : ColorState) (name : String) {c₀ : String}
    (hcat : ∀ p, categoryFind name = some p → p.2 ∈ cacheValues s.colorCache)
    (hpf : pickFresh s.availableColors (cacheValues s.colorCache) = some c₀)
    (hne : c₀ ≠ "") :
    assignColor s name = c₀ := by
  unfold assignColor
  cases hcf : categoryFind name with
  | none =>
    dsimp only
    rw [hpf, finishChoice_some s hne]
  | some p =>
    dsimp only
    rw [if_neg (by simp [hcat p hcf]), hpf, finishChoice_some s hne]

lemma assignColor_exhaust (s : ColorState) (name : String)
    (havail : s.availableColors = distinctPalette)
    (hall : ∀ c ∈ distinctPalette, c ∈ cacheValues s.colorCache) :
    assignColor s name = exhaustColor s := by
  have hpf : pickFresh s.availableColors (cacheValues s.colorCache) = none := by
    rw [havail, pickFresh_eq_none_iff]
    exact hall
  unfold assignColor
  cases hcf : categoryFind name with
  | none =>
    dsimp only
    rw [hpf, finishChoice_none]
  | some p =>
    have hpu : p.2 ∈ cacheValues s.colorCache := hall _ (categoryFind_spec hcf).1
    dsimp only
    rw [if_neg (by simp [hpu]), hpf, finishChoice_none]

lemma assignColor_eq_fromCache (s : ColorState) (name : String)
    (havail : s.availableColors = distinctPalette) :
    assignColor s name = assignColorFromCache s.colorCache name := by
  unfold assignColor assignColorFromCache
  rw [havail]
  exact finishChoice_congr rfl _

/-! ### Unfolding `getColorForGroup` -/

lemma getColorForGroup_hit (s : ColorState) (name : String) (v : JsValue)
    (h1 : name ≠ "") (h2 : jsGet s.colorCache name = v) (h3 : jsTruthy v = true) :
    getColorForGroup s name = (v, s) := by
  simp [getColorForGroup, h1, h2, h3]

lemma getColorForGroup_falsy (s : ColorState) (name : String)
    (h1 : name ≠ "") (h2 : jsTruthy (jsGet s.colorCache name) = false) :
    getColorForGroup s name =
      (JsValue.str (assignColor s name),
        { s with colorCache := jsSet s.colorCache name (assignColor s name) }) := by
  simp [getColorForGroup, h1, h2, assignAndStore]

lemma getColorForGroup_miss (s : ColorState) (name : String)
    (h1 : name ≠ "") (h2 : jsGet s.colorCache name = JsValue.undef) :
    getColorForGroup s name =
      (JsValue.str (assignColor s name),
        { s with colorCache := s.colorCache ++ [(name, assignColor s name)] }) := by
  obtain ⟨hlook, hnp⟩ := jsGet_eq_undef h2
  have hset : jsSet s.colorCache name (assignColor s name)
      = s.colorCache ++ [(name, assignColor s name)] := by
    rw [jsSet_of_ne_proto (fun he => hnp (by rw [he]; exact proto_mem_objectProtoKeys)),
      cacheSet_of_lookup_none hlook]
  rw [getColorForGroup_falsy s name h1 (by rw [h2]; rfl), hset]

/-! ### Feeding a list of fresh names -/

/-- The string components of a list of returned values, in order: the
colors actually written to the cache (inherited prototype hits
contribute none). -/
def strTokens (vs : List JsValue) : List String :=
  vs.filterMap fun v =>
    match v with
    | JsValue.str c => some c
    | _ => none

lemma strTokens_cons_str (c : String) (vs : List JsValue) :
    strTokens (JsValue.str c :: vs) = c :: strTokens vs := rfl

lemma strTokens_cons_proto (k : String) (vs : List JsValue) :
    strTokens (JsValue.protoVal k :: vs) = strTokens vs := rfl

lemma runNames_spec (names : List String) :
    ∀ s : ColorState,
      (∀ n ∈ names, n ≠ "") →
      names.Nodup →
      (∀ n ∈ names, cacheLookup s.colorCache n = none) →
      s.availableColors = distinctPalette →
      (cacheValues s.colorCache).Nodup →
      s.colorCache.length + names.length ≤ distinctPalette.length →
      (runNames s names).2.availableColors = distinctPalette ∧
        cacheValues (runNames s names).2.colorCache
          = cacheValues s.colorCache ++ strTokens (runNames s names).1 ∧
        (cacheValues (runNames s names).2.colorCache).Nodup ∧
        (∀ m : String, JsValue.protoVal m ∈ (runNames s names).1 → m ∈ names) ∧
        (runNames s names).1.Nodup := by
  induction names with
  | nil =>
    intro s _ _ _ havail hnodup _
    exact ⟨havail, by simp [runNames, strTokens], hnodup, by simp [runNames], by simp [runNames]⟩
  | cons n rest ih =>
    intro s h1 h2 h3 havail hnodup hlen
    have hn : n ≠ "" := h1 n (by simp)
    have hlook : cacheLookup s.colorCache n = none := h3 n (by simp)
    have hnotinrest : n ∉ rest := (List.nodup_cons.mp h2).1
    by_cases hproto : n ∈ objectProtoKeys
    · -- inherited prototype hit: truthy, returned as-is, state unchanged
      have hstep : getColorForGroup s n = (JsValue.protoVal n, s) :=
        getColorForGroup_hit s n _ hn (jsGet_miss_proto hlook hproto) rfl
      have hrun : runNames s (n :: rest)
          = (JsValue.protoVal n :: (runNames s rest).1, (runNames s rest).2) := by
        simp [runNames, hstep]
      have hIH := ih s
        (fun m hm => h1 m (by simp [hm]))
        (List.nodup_cons.mp h2).2
        (fun m hm => h3 m (by simp [hm]))
        havail hnodup
        (by simp only [List.length_cons] at hlen; omega)
      obtain ⟨i1, i2, i3, i4, i5⟩ := hIH
      rw [hrun]
      refine ⟨i1, ?_, i3, ?_, ?_⟩
      · dsimp only
        rw [strTokens_cons_proto]
        exact i2
      · intro m hm
        rcases List.mem_cons.mp hm with hm | hm
        · simp only [JsValue.protoVal.injEq] at hm
          rw [hm]
          exact List.mem_cons_self n rest
        · exact List.mem_cons_of_mem n (i4 m hm)
      · rw [List.nodup_cons]
        exact ⟨fun hmem => hnotinrest (i4 n hmem), i5⟩
    · -- plain fresh name: assignment path appends a fresh palette color
      have hundef : jsGet s.colorCache n = JsValue.undef := jsGet_miss_plain hlook hproto
      have hlt : s.colorCache.length < distinctPalette.length := by
        simp only [List.length_cons] at hlen
        omega
      obtain ⟨hcmem, hcused⟩ := assignColor_fresh_spec s n havail hlt
      have hstep := getColorForGroup_miss s n hn hundef
      set c := assignColor s n with hc
      set s1 : ColorState := { s with colorCache := s.colorCache ++ [(n, c)] } with hs1
      have hrun : runNames s (n :: rest)
          = (JsValue.str c :: (runNames s1 rest).1, (runNames s1 rest).2) := by
        simp [runNames, hstep]
      have hvals1 : cacheValues s1.colorCache = cacheValues s.colorCache ++ [c] := by
        simp [hs1, cacheValues_append, cacheValues]
      have hIH := ih s1
        (fun m hm => h1 m (by simp [hm]))
        (List.nodup_cons.mp h2).2
        (fun m hm => by
          rw [cacheLookup_eq_none_iff]
          intro p hp
          have hp' : p ∈ s.colorCache ++ [(n, c)] := by simpa [hs1] using hp
          rcases List.mem_append.mp hp' with hpc | hpn
          · exact (cacheLookup_eq_none_iff.mp (h3 m (by simp [hm]))) p hpc
          · have hpe : p = (n, c) := by simpa using hpn
            rw [hpe]
            intro hnm
            have hnm' : n = m := hnm
            exact hnotinrest (hnm' ▸ hm))
        (by simp [hs1, havail])
        (by
          rw [hvals1, List.nodup_append]
          exact ⟨hnodup, List.nodup_singleton c, by simpa [List.disjoint_singleton] using hcused⟩)
        (by
          have hql : s1.colorCache.length = s.colorCache.length + 1 := by simp [hs1]
          simp only [hql, List.length_cons] at hlen ⊢
          omega)
      obtain ⟨i1, i2, i3, i4, i5⟩ := hIH
      have hvals2 : cacheValues (runNames s1 rest).2.colorCache
          = cacheValues s.colorCache ++ (c :: strTokens (runNames s1 rest).1) := by
        rw [i2, hvals1, List.append_assoc, List.singleton_append]
      rw [hrun]
      refine ⟨i1, ?_, i3, ?_, ?_⟩
      · dsimp only
        rw [strTokens_cons_str]
        exact hvals2
      · intro m hm
        rcases List.mem_cons.mp hm with hm | hm
        · exact absurd hm (by simp)
        · exact List.mem_cons_of_mem n (i4 m hm)
      · rw [List.nodup_cons]
        refine ⟨fun hmem => ?_, i5⟩
        have hcin : c ∈ strTokens (runNames s1 rest).1 := by
          rw [strTokens, List.mem_filterMap]
          exact ⟨JsValue.str c, hmem, rfl⟩
        have hnd := i3
        rw [hvals2, List.nodup_append] at hnd
        rw [List.nodup_cons] at hnd
        exact hnd.2.1.1 hcin

/-! ### Further unfolding lemmas -/

lemma getColorForGroup_truthy (s : ColorState) (name : String) :
    jsTruthy (getColorForGroup s name).1 = true := by
  by_cases h : name = ""
  · subst h
    rfl
  · cases htv : jsTruthy (jsGet s.colorCache name) with
    | true =>
      rw [getColorForGroup_hit s name _ h rfl htv]
      exact htv
    | false =>
      rw [getColorForGroup_falsy s name h htv]
      simp [jsTruthy, assignColor_ne_empty s name]

lemma getColorForGroup_availableColors (s : ColorState) (name : String) :
    (getColorForGroup s name).2.availableColors = s.availableColors := by
  by_cases h : name = ""
  · simp [getColorForGroup, h]
  · cases htv : jsTruthy (jsGet s.colorCache name) with
    | true => simp [getColorForGroup, h, htv]
    | false => simp [getColorForGroup, h, htv, assignAndStore]

lemma applyOps_availableColors (ops : List JsOp) :
    ∀ s : ColorState, s.availableColors = distinctPalette →
      (applyOps s ops).availableColors = distinctPalette := by
  induction ops with
  | nil => intro s h; simpa [applyOps] using h
  | cons op rest ih =>
    intro s h
    have h1 : (applyOp s op).availableColors = distinctPalette := by
      cases op with
      | reset => rfl
      | getColor n => rw [applyOp, getColorForGroup_availableColors]; exact h
      | setColor n c => exact h
      | getCache => exact h
    exact ih (applyOp s op) h1


/-! ## The claims -/

/-- C1: for any sequence of at most 10 distinct non-empty names, each
passed exactly once to `getColorForGroup` on a fresh (or freshly reset)
engine with no intervening `setColorForGroup` or reset calls, the
returned colors are pairwise distinct, and no two distinct names in the
cache simultaneously hold the same color value.  (Names colliding with
`Object.prototype` members return pairwise-distinct inherited values
and leave the cache untouched, so the property covers them too.) -/
theorem claim_C1 (names : List String)
    (h1 : ∀ n ∈ names, n ≠ "") (h2 : names.Nodup)
    (h3 : names.length ≤ 10) :
    (runNames initState names).1.Nodup ∧
      (cacheValues (runNames initState names).2.colorCache).Nodup := by
  have h := runNames_spec names initState h1 h2 (fun n _ => rfl) rfl
    (by simp [initState, cacheValues])
    (by simpa [initState, distinctPalette] using h3)
  exact ⟨h.2.2.2.2, h.2.2.1⟩

/-- Witness for C1 at a concrete three-name sequence. -/
theorem claim_C1_witness :
    ((∀ n ∈ (["Power Station A", "Power Station B", "Gas Boilers"] : List String), n ≠ "") ∧
        (["Power Station A", "Power Station B", "Gas Boilers"] : List String).Nodup ∧
        (["Power Station A", "Power Station B", "Gas Boilers"] : List String).length ≤ 10) ∧
      ((runNames initState ["Power Station A", "Power Station B", "Gas Boilers"]).1.Nodup ∧
        (cacheValues
          (runNames initState
            ["Power Station A", "Power Station B", "Gas Boilers"]).2.colorCache).Nodup) :=
  ⟨⟨by decide, by decide, by decide⟩,
    claim_C1 ["Power Station A", "Power Station B", "Gas Boilers"]
      (by decide) (by decide) (by decide)⟩

/-- C2: for every non-empty name, two consecutive calls to
`getColorForGroup(name)` with no intervening reset or override return
identical values and the second call leaves the state unchanged: the
repeated call returns the exact result (value and state) of the first.
This holds over every state, including truthy inherited
prototype-member hits (returned unchanged both times) and a falsy
cached empty string (reassigned by the first call, then stable). -/
theorem claim_C2 (s : ColorState) (name : String) (h : name ≠ "") :
    getColorForGroup (getColorForGroup s name).2 name = getColorForGroup s name := by
  cases htv : jsTruthy (jsGet s.colorCache name) with
  | true =>
    have h1 := getColorForGroup_hit s name _ h rfl htv
    rw [h1]
    exact h1
  | false =>
    have hset : jsSet s.colorCache name (assignColor s name)
        = cacheSet s.colorCache name (assignColor s name) := by
      cases hv : jsGet s.colorCache name with
      | str c => exact jsSet_of_lookup_some (jsGet_eq_str hv) _
      | protoVal k => rw [hv] at htv; exact absurd htv (by simp [jsTruthy])
      | undef =>
        obtain ⟨_, hnp⟩ := jsGet_eq_undef hv
        exact jsSet_of_ne_proto (fun he => hnp (by rw [he]; exact proto_mem_objectProtoKeys)) _ _
    have h1 := getColorForGroup_falsy s name h htv
    rw [hset] at h1
    rw [h1]
    exact getColorForGroup_hit _ name _ h
      (jsGet_of_lookup_some
        (cacheLookup_cacheSet_self s.colorCache name (assignColor s name)))
      (by simp [jsTruthy, assignColor_ne_empty s name])

/-- Witness for C2 at a concrete name on the fresh engine. -/
theorem claim_C2_witness :
    ("Power Station A" : String) ≠ "" ∧
      getColorForGroup (getColorForGroup initState "Power Station A").2 "Power Station A"
        = getColorForGroup initState "Power Station A" :=
  ⟨by decide, claim_C2 initState "Power Station A" (by decide)⟩

/-- C3: on a fresh engine (empty cache), a name whose lowercasing
contains a category key receives that category's designated palette
color (first matching key in declaration order), and the cache entry
created uses the exact original string as its key; in particular
`"Power Station A" ↦ #3CB44B`, `"Gas Boilers" ↦ #4363D8`, and
`"ECODESIGN Stove" ↦ #F58231` with cache key `"ECODESIGN Stove"`.
(No `Object.prototype` key contains a category substring, so a
category-matching name never hits the prototype chain.) -/
theorem claim_C3 (name k c : String) (h1 : name ≠ "")
    (h2 : categoryFind name = some (k, c)) :
    getColorForGroup initState name
        = (JsValue.str c,
            { colorCache := [(name, c)], availableColors := distinctPalette }) ∧
      (getColorForGroup initState "Power Station A").1 = JsValue.str "#3CB44B" ∧
      (getColorForGroup initState "Gas Boilers").1 = JsValue.str "#4363D8" ∧
      getColorForGroup initState "ECODESIGN Stove"
        = (JsValue.str "#F58231",
            { colorCache := [("ECODESIGN Stove", "#F58231")],
              availableColors := distinctPalette }) := by
  refine ⟨?_, by decide, by decide, by decide⟩
  have hnp : name ∉ objectProtoKeys := not_protoKey_of_categoryFind h2
  have hundef : jsGet initState.colorCache name = JsValue.undef :=
    jsGet_miss_plain rfl hnp
  have hassign : assignColor initState name = c :=
    assignColor_category initState name h2 (by simp [initState, cacheValues])
  rw [getColorForGroup_miss initState name h1 hundef, hassign]
  simp [initState]

/-- Witness for C3 at `"ECODESIGN Stove"`: the category match fires
case-insensitively and the cache key keeps the original casing. -/
theorem claim_C3_witness :
    (("ECODESIGN Stove" : String) ≠ "" ∧
        categoryFind "ECODESIGN Stove" = some ("ecodesign", "#F58231")) ∧
      getColorForGroup initState "ECODESIGN Stove"
        = (JsValue.str "#F58231",
            { colorCache := [("ECODESIGN Stove", "#F58231")],
              availableColors := distinctPalette }) :=
  ⟨⟨by decide, by decide⟩,
    (claim_C3 "ECODESIGN Stove" "ecodesign" "#F58231" (by decide) (by decide)).1⟩

/-- Counterexample to C4 as stated: `"toString"` on a fresh engine has
no category match and an empty cache whose first unused palette color
is `#E6194B`, yet `getColorForGroup` returns the truthy inherited
`Object.prototype.toString` member from the cache check — not the first
unused palette color — and caches nothing. -/
theorem claim_C4_counterexample :
    categoryFind "toString" = none ∧
      getColorCache initState = [] ∧
      pickFresh distinctPalette (cacheValues initState.colorCache) = some "#E6194B" ∧
      getColorForGroup initState "toString" = (JsValue.protoVal "toString", initState) ∧
      (getColorForGroup initState "toString").1 ≠ JsValue.str "#E6194B" := by
  refine ⟨by decide, rfl, by decide, by decide, by decide⟩

/-- C4 (amended): on a true cache miss — the property read yields
`undefined`, i.e. no own entry and no collision with an
`Object.prototype` member — where the category candidate is already in
use (or there is no category match), `getColorForGroup` returns the
first palette color not currently among the cache's values; concretely,
after `"Power Station A"` takes `#3CB44B`, `"Power Station B"` gets
`#E6194B ≠ #3CB44B`, an unused palette color. -/
theorem claim_C4 (s : ColorState) (name c₀ : String)
    (h1 : name ≠ "") (h2 : jsGet s.colorCache name = JsValue.undef)
    (h3 : s.availableColors = distinctPalette)
    (h4 : ∀ p, categoryFind name = some p → p.2 ∈ cacheValues s.colorCache)
    (h5 : pickFresh distinctPalette (cacheValues s.colorCache) = some c₀) :
    (getColorForGroup s name).1 = JsValue.str c₀ ∧ c₀ ∈ distinctPalette ∧
      c₀ ∉ cacheValues s.colorCache ∧
      (getColorForGroup (getColorForGroup initState "Power Station A").2 "Power Station B").1
          = JsValue.str "#E6194B" ∧
      ("#E6194B" : String) ≠ "#3CB44B" ∧
      "#E6194B" ∈ distinctPalette ∧
      "#E6194B" ∉ cacheValues (getColorForGroup initState "Power Station A").2.colorCache := by
  obtain ⟨hc₀mem, hc₀used⟩ := pickFresh_some h5
  have hc₀ne := distinctPalette_ne_empty _ hc₀mem
  have hA : assignColor s name = c₀ :=
    assignColor_fallback s name h4 (by rw [h3]; exact h5) hc₀ne
  refine ⟨?_, hc₀mem, hc₀used, by decide, by decide, by decide, by decide⟩
  rw [getColorForGroup_miss s name h1 h2, hA]

/-- Witness for the amended C4: the concrete category-collision
scenario. -/
theorem claim_C4_witness :
    categoryFind "Power Station B" = some ("power", "#3CB44B") ∧
      "#3CB44B" ∈ cacheValues (getColorForGroup initState "Power Station A").2.colorCache ∧
      pickFresh distinctPalette
          (cacheValues (getColorForGroup initState "Power Station A").2.colorCache)
        = some "#E6194B" ∧
      (getColorForGroup (getColorForGroup initState "Power Station A").2 "Power Station B").1
        = JsValue.str "#E6194B" :=
  ⟨by decide, by decide, by decide,
    (claim_C4 (getColorForGroup initState "Power Station A").2 "Power Station B" "#E6194B"
      (by decide) (by decide) (by decide)
      (fun p hp => by
        have hcat : categoryFind "Power Station B" = some ("power", "#3CB44B") := by decide
        rw [hcat] at hp
        injection hp with hpe
        rw [← hpe]
        decide)
      (by decide)).1⟩

/-- Counterexample to C5 as stated: after ten generic names every
palette color is in use, yet `"toString"` (no own entry) returns the
truthy inherited `Object.prototype.toString` member, not the wraparound
color `distinctPalette[10 % 10] = #E6194B`. -/
theorem claim_C5_counterexample :
    cacheValues (runNames initState
        ["G1", "G2", "G3", "G4", "G5", "G6", "G7", "G8", "G9", "G10"]).2.colorCache
      = distinctPalette ∧
      getColorForGroup (runNames initState
          ["G1", "G2", "G3", "G4", "G5", "G6", "G7", "G8", "G9", "G10"]).2 "toString"
        = (JsValue.protoVal "toString",
            (runNames initState
              ["G1", "G2", "G3", "G4", "G5", "G6", "G7", "G8", "G9", "G10"]).2) ∧
      (getColorForGroup (runNames initState
          ["G1", "G2", "G3", "G4", "G5", "G6", "G7", "G8", "G9", "G10"]).2 "toString").1
        ≠ JsValue.str "#E6194B" := by
  refine ⟨by decide, by decide, by decide⟩

/-- C5 (amended): when every palette color is in use and the name's
property read yields `undefined` (no own entry and no collision with an
`Object.prototype` member), `getColorForGroup` returns
`distinctPalette[(cache size) % 10]`; feeding 11 distinct generic names
on a fresh engine gives the 11th name `palette[10 % 10] = #E6194B`,
duplicating the 1st name's color, without any error. -/
theorem claim_C5 (s : ColorState) (name : String)
    (h1 : name ≠ "") (h2 : jsGet s.colorCache name = JsValue.undef)
    (h3 : s.availableColors = distinctPalette)
    (h4 : ∀ c ∈ distinctPalette, c ∈ cacheValues s.colorCache) :
    (getColorForGroup s name).1
        = JsValue.str
            (distinctPalette.getD (s.colorCache.length % distinctPalette.length) "") ∧
      (runNames initState
          ["G1", "G2", "G3", "G4", "G5", "G6", "G7", "G8", "G9", "G10", "G11"]).1
        = (["#E6194B", "#3CB44B", "#FFE119", "#4363D8", "#F58231",
            "#911EB4", "#46F0F0", "#F032E6", "#BCF60C", "#FABEBE",
            "#E6194B"].map JsValue.str) := by
  refine ⟨?_, by decide⟩
  rw [getColorForGroup_miss s name h1 h2]
  dsimp only
  rw [assignColor_exhaust s name h3 h4]
  rfl

/-- Witness for the amended C5: after ten generic names exhaust the
palette, the 11th generic name wraps around to `#E6194B`. -/
theorem claim_C5_witness :
    cacheValues
        (runNames initState
          ["G1", "G2", "G3", "G4", "G5", "G6", "G7", "G8", "G9", "G10"]).2.colorCache
      = distinctPalette ∧
    (getColorForGroup
        (runNames initState
          ["G1", "G2", "G3", "G4", "G5", "G6", "G7", "G8", "G9", "G10"]).2 "G11").1
      = JsValue.str "#E6194B" := by
  refine ⟨by decide, ?_⟩
  have h := (claim_C5
    (runNames initState ["G1", "G2", "G3", "G4", "G5", "G6", "G7", "G8", "G9", "G10"]).2
    "G11" (by decide) (by decide) (by decide) (by decide)).1
  rw [h]
  decide

/-- C6: `getColorForGroup` on the empty (JavaScript-falsy) name returns
the sentinel `#888888`, leaves the state untouched, and the cache
snapshot before and after the call is identical. -/
theorem claim_C6 (s : ColorState) :
    getColorForGroup s "" = (JsValue.str "#888888", s) ∧
      getColorCache (getColorForGroup s "").2 = getColorCache s := by
  constructor <;> simp [getColorForGroup, getColorCache]

/-- C7: after `resetColorSystem`, the cache snapshot is empty, the state
equals the fresh-engine state, and any subsequent sequence of
`getColorForGroup` calls returns exactly what it would on a freshly
started engine. -/
theorem claim_C7 (s : ColorState) :
    getColorCache (resetColorSystem s) = [] ∧
      resetColorSystem s = initState ∧
      ∀ names : List String, runNames (resetColorSystem s) names = runNames initState names :=
  ⟨rfl, rfl, fun _ => rfl⟩

/-- Counterexample to C8 as stated, at three concrete inputs: the empty
name does get an entry but `getColorForGroup("")` returns the sentinel
instead of it; an empty stored color is falsy and gets reassigned; and
`setColorForGroup("__proto__", "#123456")` creates no entry at all —
the inherited `__proto__` accessor setter swallows the string — after
which `getColorForGroup("__proto__")` returns the inherited prototype
member, not the overridden color. -/
theorem claim_C8_counterexample :
    cacheLookup (setColorForGroup initState "" "#123456").colorCache "" = some "#123456" ∧
      (getColorForGroup (setColorForGroup initState "" "#123456") "").1
        = JsValue.str "#888888" ∧
      (getColorForGroup (setColorForGroup initState "" "#123456") "").1
        ≠ JsValue.str "#123456" ∧
      cacheLookup (setColorForGroup initState "X" "").colorCache "X" = some "" ∧
      (getColorForGroup (setColorForGroup initState "X" "") "X").1 ≠ JsValue.str "" ∧
      setColorForGroup initState "__proto__" "#123456" = initState ∧
      (getColorForGroup (setColorForGroup initState "__proto__" "#123456") "__proto__").1
        = JsValue.protoVal "__proto__" ∧
      (getColorForGroup (setColorForGroup initState "__proto__" "#123456") "__proto__").1
        ≠ JsValue.str "#123456" := by
  refine ⟨by decide, by decide, by decide, by decide, by decide, by decide,
    by decide, by decide⟩

/-- C8 (amended): `setColorForGroup(name, color)` overwrites (or
creates) the cache entry for `name`, bypassing all collision and
category logic, for every name except `"__proto__"`, whose write is
swallowed by the inherited accessor and creates no entry; for a
non-empty name other than `"__proto__"` and a non-empty (truthy) color,
a subsequent `getColorForGroup(name)` returns exactly that color
without touching the state, even when the color is not one of the 10
palette colors, as in `setColorForGroup("X", "#123456")`. -/
theorem claim_C8 (s : ColorState) (name color : String)
    (h1 : name ≠ "") (h2 : name ≠ "__proto__") (h3 : color ≠ "") :
    cacheLookup (setColorForGroup s name color).colorCache name = some color ∧
      getColorForGroup (setColorForGroup s name color) name
        = (JsValue.str color, setColorForGroup s name color) ∧
      getColorForGroup (setColorForGroup initState "X" "#123456") "X"
        = (JsValue.str "#123456", setColorForGroup initState "X" "#123456") ∧
      "#123456" ∉ distinctPalette := by
  have hlk : cacheLookup (setColorForGroup s name color).colorCache name = some color := by
    show cacheLookup (jsSet s.colorCache name color) name = some color
    rw [jsSet_of_ne_proto h2]
    exact cacheLookup_cacheSet_self s.colorCache name color
  refine ⟨hlk, ?_, by decide, by decide⟩
  exact getColorForGroup_hit _ name _ h1 (jsGet_of_lookup_some hlk)
    (by simp [jsTruthy, h3])

/-- Witness for the amended C8 at the spec's concrete override. -/
theorem claim_C8_witness :
    (("X" : String) ≠ "" ∧ ("X" : String) ≠ "__proto__" ∧ ("#123456" : String) ≠ "") ∧
      getColorForGroup (setColorForGroup initState "X" "#123456") "X"
        = (JsValue.str "#123456", setColorForGroup initState "X" "#123456") :=
  ⟨⟨by decide, by decide, by decide⟩,
    (claim_C8 initState "X" "#123456" (by decide) (by decide) (by decide)).2.1⟩

/-- C9: every operation of the engine is total and never throws — on
every state and input `getColorForGroup` returns a defined, truthy
value (first conjunct) — but the claim that the value is always a color
token fails on the code: at the failing input `"constructor"` on a
fresh engine the truthy cache check hits the inherited
`Object.prototype.constructor` member and returns it (second conjunct),
a value that is no string at all (third conjunct), contradicting the
function's own documentation `@returns {string} Hex color code`. -/
theorem claim_C9 :
    (∀ (s : ColorState) (name : String), jsTruthy (getColorForGroup s name).1 = true) ∧
      getColorForGroup initState "constructor"
        = (JsValue.protoVal "constructor", initState) ∧
      (∀ c : String, JsValue.protoVal "constructor" ≠ JsValue.str c) :=
  ⟨getColorForGroup_truthy, by decide, fun c => by simp⟩

/-- C10: no public operation other than `resetColorSystem` writes to
`availableColors`: along every operation sequence from the initial
state it stays the full palette in order, `getColorForGroup` and
`setColorForGroup` preserve it, and whenever it holds its initial value
the assignment decision is the one computed from the cache alone with
the fallback scanning the fixed palette directly. -/
theorem claim_C10 :
    (∀ ops : List JsOp, (applyOps initState ops).availableColors = distinctPalette) ∧
      (∀ (s : ColorState) (name : String),
        (getColorForGroup s name).2.availableColors = s.availableColors) ∧
      (∀ (s : ColorState) (name color : String),
        (setColorForGroup s name color).availableColors = s.availableColors) ∧
      (∀ (s : ColorState) (name : String), s.availableColors = distinctPalette →
        assignColor s name = assignColorFromCache s.colorCache name) :=
  ⟨fun ops => applyOps_availableColors ops initState rfl,
    getColorForGroup_availableColors,
    fun _ _ _ => rfl,
    assignColor_eq_fromCache⟩

end Colors
